import Mathlib

/-!
Verification of the transcript-ui-page repository.

The development shallowly embeds the two Next.js route handlers of the
repository — the Gemini generation route (`src/unnamed/part_000`, exported
`POST` together with `createDynamicJsonSchema`) and the document fill route
(`src/src/app/api/fill-doc/route.ts`, exported `POST` together with
`sanitizeFilename` and `injectStudentName`) — as pure Lean functions over an
explicit JSON value type.  File-system reads, the Gemini network call, the
docx rendering library and the output write are modelled as explicit
environment fields holding their outcome for the request under scrutiny, so
that each handler becomes a total function from its environment and parsed
request body to the HTTP response it produces.
-/

/-- JSON values as produced by JavaScript's `JSON.parse`.  Numbers are
modelled by their truncated integer value: the routes only ever inspect a
number's truthiness (zero versus non-zero), and no claim involves fractional
rubric values, so the fractional part is validated syntactically by the
parser but not stored. -/
inductive Json where
  | null : Json
  | bool : Bool → Json
  | num : Int → Json
  | str : String → Json
  | arr : List Json → Json
  | obj : List (String × Json) → Json

/-- Named-property access, as in `guideData?.rolePlayScenerio`: a property
lookup on a JavaScript object.  On every non-object value the properties the
routes read are absent, which JavaScript reports as `undefined` (here:
`none`). -/
def getField : Json → String → Option Json
  | Json.obj kvs, k => kvs.lookup k
  | _, _ => none

/-- JavaScript falsiness of a defined value: `null`, `false`, `0` and the
empty string are falsy; every object and array is truthy. -/
def jsFalsy : Json → Bool
  | Json.null => true
  | Json.bool b => !b
  | Json.num n => n == 0
  | Json.str s => s == ""
  | Json.arr _ => false
  | Json.obj _ => false

/-- Falsiness of a possibly-undefined value (`undefined` is falsy). -/
def jsFalsyOpt : Option Json → Bool
  | none => true
  | some j => jsFalsy j

/-- Whether `typeof v === "object"` holds: true exactly for objects, arrays
and `null`. -/
def jsTypeofObject : Json → Bool
  | Json.obj _ => true
  | Json.arr _ => true
  | Json.null => true
  | _ => false

/-- `Object.entries`: key/value pairs of an object, index/value pairs of an
array.  The fill route only applies this to values that passed its
`typeof === "object"` check. -/
def jsEntries : Json → List (String × Json)
  | Json.obj kvs => kvs
  | Json.arr vs => vs.enum.map (fun p => (toString p.1, p.2))
  | _ => []

/-- `Object.keys`: keys of an object, index keys of an array or a string,
nothing for other primitives.  JavaScript additionally orders integer-like
keys first; the generation route only ever takes the length of a filtered
key list, which ordering does not affect, so the order is kept as stored. -/
def jsObjectKeys : Json → List String
  | Json.obj kvs => kvs.map Prod.fst
  | Json.arr vs => (List.range vs.length).map toString
  | Json.str s => (List.range s.length).map toString
  | _ => []

/-- JavaScript property assignment `out[k] = v`: an existing key keeps its
position and gets the new value, a fresh key is appended. -/
def jsSetField (l : List (String × Json)) (k : String) (v : Json) :
    List (String × Json) :=
  if l.any (fun p => p.1 == k) then
    l.map (fun p => if p.1 == k then (k, v) else p)
  else
    l ++ [(k, v)]

/-- JavaScript `String(v)` coercion for the primitive values.  The fill route
coerces `studentName` this way inside `String.prototype.replace`; for a
non-string `studentName` the route later throws a `TypeError` (surfaced as a
500 response) before the coerced text becomes observable, so the array case
is not modelled precisely. -/
def jsToString : Json → String
  | Json.str s => s
  | Json.num n => toString n
  | Json.bool true => "true"
  | Json.bool false => "false"
  | Json.null => "null"
  | Json.obj _ => "[object Object]"
  | Json.arr _ => ""

/-! ### JavaScript whitespace and the `Number` string conversion

`createDynamicJsonSchema` filters instruction keys with `!isNaN(Number(k))`.
`Number` on a string trims whitespace, maps the empty remainder to `0`,
accepts `Infinity` with an optional sign, signed decimal literals and
unsigned hexadecimal, octal and binary literals, and yields `NaN` otherwise.
-/

/-- The whitespace characters trimmed by JavaScript's string-to-number
conversion (and by `String.prototype.trim`). -/
def jsWhitespaceChar (c : Char) : Bool :=
  c == ' ' || c == '\t' || c == '\n' || c == '\r' ||
  c.toNat == 11 || c.toNat == 12 ||
  c.toNat == 0xA0 || c.toNat == 0x1680 ||
  (0x2000 ≤ c.toNat && c.toNat ≤ 0x200A) ||
  c.toNat == 0x2028 || c.toNat == 0x2029 || c.toNat == 0x202F ||
  c.toNat == 0x205F || c.toNat == 0x3000 || c.toNat == 0xFEFF

/-- Trim JavaScript whitespace from both ends of a character list. -/
def jsTrimList (l : List Char) : List Char :=
  ((l.dropWhile jsWhitespaceChar).reverse.dropWhile jsWhitespaceChar).reverse

/-- A non-empty, all-decimal-digit character list. -/
def isDigits (l : List Char) : Bool :=
  !l.isEmpty && l.all Char.isDigit

/-- Split a list at the first character satisfying `p`, dropping that
character; `none` when no character satisfies `p`. -/
def splitAtFirst (p : Char → Bool) : List Char → Option (List Char × List Char)
  | [] => none
  | c :: cs =>
    if p c then some ([], cs)
    else (splitAtFirst p cs).map (fun q => (c :: q.1, q.2))

/-- Exponent digits with an optional leading sign. -/
def isSignedDigits (l : List Char) : Bool :=
  match l with
  | c :: cs => if c == '+' || c == '-' then isDigits cs else isDigits l
  | [] => false

/-- The mantissa of a decimal literal: `Digits`, `Digits . Digits?` or
`. Digits`. -/
def isMantissa (l : List Char) : Bool :=
  match splitAtFirst (fun c => c == '.') l with
  | none => isDigits l
  | some q =>
    (isDigits q.1 && (q.2.isEmpty || isDigits q.2)) ||
    (q.1.isEmpty && isDigits q.2)

/-- An unsigned decimal literal, optionally followed by an exponent part. -/
def isUnsignedDecimal (l : List Char) : Bool :=
  match splitAtFirst (fun c => c == 'e' || c == 'E') l with
  | none => isMantissa l
  | some q => isMantissa q.1 && isSignedDigits q.2

def isHexDigitChar (c : Char) : Bool :=
  c.isDigit || ('a' ≤ c && c ≤ 'f') || ('A' ≤ c && c ≤ 'F')

def isOctalDigitChar (c : Char) : Bool :=
  '0' ≤ c && c ≤ '7'

def isBinaryDigitChar (c : Char) : Bool :=
  c == '0' || c == '1'

/-- An unsigned hexadecimal, octal or binary integer literal (`0x…`, `0o…`,
`0b…`); these admit no sign in the `Number` grammar. -/
def isNonDecimalIntLiteral (l : List Char) : Bool :=
  match l with
  | '0' :: c :: rest =>
    if c == 'x' || c == 'X' then !rest.isEmpty && rest.all isHexDigitChar
    else if c == 'o' || c == 'O' then !rest.isEmpty && rest.all isOctalDigitChar
    else if c == 'b' || c == 'B' then !rest.isEmpty && rest.all isBinaryDigitChar
    else false
  | _ => false

/-- `Infinity` or an unsigned decimal literal — the part of the grammar an
optional sign may precede. -/
def isInfinityOrDecimal (l : List Char) : Bool :=
  l == "Infinity".data || isUnsignedDecimal l

/-- The key filter of `createDynamicJsonSchema`: `!isNaN(Number(k))`. -/
def jsIsNumericKey (s : String) : Bool :=
  match jsTrimList s.data with
  | [] => true
  | c :: rest =>
    isNonDecimalIntLiteral (c :: rest) ||
    (if c == '+' || c == '-' then isInfinityOrDecimal rest
     else isInfinityOrDecimal (c :: rest))

/-! ### The dynamic response schema (`createDynamicJsonSchema`) -/

/-- The `@google/genai` `Type` enum values used by the route. -/
inductive GType where
  | STRING : GType
  | OBJECT : GType
deriving DecidableEq

/-- One property of the derived response schema. -/
structure PropSpec where
  type : GType
  description : String
deriving DecidableEq

/-- The derived response schema: an object schema with named properties and
a list of required property names. -/
structure DynamicSchema where
  type : GType
  properties : List (String × PropSpec)
  required : List String
deriving DecidableEq

def perfKey (i : Nat) : String := "performance_observed_" ++ toString i

def actionKey (i : Nat) : String := "example_action_" ++ toString i

def perfDescription (i : Nat) : String :=
  "Evaluate student's performance for benchmark criterion " ++ toString i ++
    " based on the transcript."

def actionDescription (i : Nat) : String :=
  "Provide a direct quote from the transcript as evidence for criterion " ++
    toString i ++ "."

/-- The two schema properties the loop body adds for criterion `i`. -/
def criterionFields (i : Nat) : List (String × PropSpec) :=
  [(perfKey i, ⟨GType.STRING, perfDescription i⟩),
   (actionKey i, ⟨GType.STRING, actionDescription i⟩)]

/-- The `properties` object accumulated by the `for (let i = 1; i <= n; i++)`
loop. -/
def schemaProperties (n : Nat) : List (String × PropSpec) :=
  (List.range n).flatMap (fun j => criterionFields (j + 1))

/-- The `required` array accumulated by the same loop:
`performance_observed_i, example_action_i` for `i = 1..n`. -/
def requiredFields (n : Nat) : List String :=
  (List.range n).flatMap (fun j => [perfKey (j + 1), actionKey (j + 1)])

/-- The optional-chained access
`guideData?.rolePlayScenerio?.["instruction for roleplay"]`. -/
def getInstructions (guideData : Json) : Option Json :=
  (getField guideData "rolePlayScenerio").bind
    (fun v => getField v "instruction for roleplay")

/-- `createDynamicJsonSchema` from the generation route: count the
instruction keys accepted by `!isNaN(Number(k))` and build an object schema
with two required string properties per criterion.  The route sorts the
filtered keys numerically before taking their length; sorting does not
change the length, which is the only use made of the list, so the sort is
not modelled.  The surrounding `try`/`catch` cannot fire in this pure
embedding. -/
def createDynamicJsonSchema (guideData : Json) : Option DynamicSchema :=
  match getInstructions guideData with
  | none => none
  | some instructions =>
    if jsFalsy instructions then none
    else
      let benchmarkKeys := (jsObjectKeys instructions).filter jsIsNumericKey
      let numBenchmarks := benchmarkKeys.length
      if numBenchmarks == 0 then none
      else some ⟨GType.OBJECT, schemaProperties numBenchmarks,
                 requiredFields numBenchmarks⟩

/-! ### A model of `JSON.parse`

Both routes call `JSON.parse` — on the rubric file's text and on the text
returned by the generation service.  The parser below follows the JSON
grammar: optional whitespace around tokens, objects, arrays, strings with
the standard escapes, numbers without leading zeros, and the three literal
words.  It is fuel-indexed so that it is structurally recursive and
evaluates inside the kernel; the fuel supplied by `jsonParse` always
suffices.  Two divergences from a JavaScript engine, neither observable in
any claim: surrogate `\uXXXX` escapes map to the replacement character
(Lean characters are scalar values, JavaScript strings are UTF-16), and
a duplicated object key keeps both entries instead of the last one. -/

def jsonWsChar (c : Char) : Bool :=
  c == ' ' || c == '\t' || c == '\n' || c == '\r'

def skipJsonWs (l : List Char) : List Char :=
  l.dropWhile jsonWsChar

def hexDigitVal (c : Char) : Option Nat :=
  if '0' ≤ c && c ≤ '9' then some (c.toNat - 48)
  else if 'a' ≤ c && c ≤ 'f' then some (c.toNat - 87)
  else if 'A' ≤ c && c ≤ 'F' then some (c.toNat - 55)
  else none

def dquoteChar : Char := Char.ofNat 34

/-- Parse the body of a JSON string, the opening quote already consumed;
returns the decoded characters and the input after the closing quote. -/
def pStringChars : List Char → Option (List Char × List Char)
  | [] => none
  | c :: cs =>
    if c == dquoteChar then some ([], cs)
    else if c == '\\' then
      match cs with
      | [] => none
      | e :: cs2 =>
        if e == dquoteChar then
          (pStringChars cs2).map (fun p => (dquoteChar :: p.1, p.2))
        else if e == '\\' then
          (pStringChars cs2).map (fun p => ('\\' :: p.1, p.2))
        else if e == '/' then
          (pStringChars cs2).map (fun p => ('/' :: p.1, p.2))
        else if e == 'b' then
          (pStringChars cs2).map (fun p => (Char.ofNat 8 :: p.1, p.2))
        else if e == 'f' then
          (pStringChars cs2).map (fun p => (Char.ofNat 12 :: p.1, p.2))
        else if e == 'n' then
          (pStringChars cs2).map (fun p => ('\n' :: p.1, p.2))
        else if e == 'r' then
          (pStringChars cs2).map (fun p => ('\r' :: p.1, p.2))
        else if e == 't' then
          (pStringChars cs2).map (fun p => ('\t' :: p.1, p.2))
        else if e == 'u' then
          match cs2 with
          | h1 :: h2 :: h3 :: h4 :: cs3 =>
            match hexDigitVal h1, hexDigitVal h2, hexDigitVal h3, hexDigitVal h4 with
            | some a, some b, some c2, some d =>
              let n := ((a * 16 + b) * 16 + c2) * 16 + d
              let ch := if n < 0xD800 || 0xDFFF < n then Char.ofNat n
                        else Char.ofNat 0xFFFD
              (pStringChars cs3).map (fun p => (ch :: p.1, p.2))
            | _, _, _, _ => none
          | _ => none
        else none
    else if c.toNat < 32 then none
    else (pStringChars cs).map (fun p => (c :: p.1, p.2))

def digitsToNat (l : List Char) : Nat :=
  l.foldl (fun a c => a * 10 + (c.toNat - 48)) 0

/-- Build the numeric value from the sign and integer digits (the stored,
truncated value — see `Json.num`). -/
def mkJsonNum (neg : Bool) (intDigits : List Char) : Json :=
  let n : Int := digitsToNat intDigits
  Json.num (if neg then -n else n)

/-- Parse an optional exponent part and finish a number. -/
def pNumberExp (neg : Bool) (intDigits : List Char) (cs : List Char) :
    Option (Json × List Char) :=
  match cs with
  | c :: r =>
    if c == 'e' || c == 'E' then
      let r2 := match r with
                | d :: rr => if d == '+' || d == '-' then rr else r
                | [] => r
      if (r2.takeWhile Char.isDigit).isEmpty then none
      else some (mkJsonNum neg intDigits, r2.dropWhile Char.isDigit)
    else some (mkJsonNum neg intDigits, cs)
  | [] => some (mkJsonNum neg intDigits, [])

/-- Parse a JSON number starting at the first character of its literal. -/
def pNumber (cs : List Char) : Option (Json × List Char) :=
  let signSplit : Bool × List Char :=
    match cs with
    | c :: r => if c == '-' then (true, r) else (false, cs)
    | [] => (false, cs)
  let neg := signSplit.1
  let cs1 := signSplit.2
  let intDigits := cs1.takeWhile Char.isDigit
  let rest1 := cs1.dropWhile Char.isDigit
  if intDigits.isEmpty then none
  else if intDigits.length > 1 && intDigits.head? == some '0' then none
  else
    match rest1 with
    | '.' :: r2 =>
      if (r2.takeWhile Char.isDigit).isEmpty then none
      else pNumberExp neg intDigits (r2.dropWhile Char.isDigit)
    | _ => pNumberExp neg intDigits rest1

def lbraceChar : Char := Char.ofNat 123
def rbraceChar : Char := Char.ofNat 125

/-- What the recursive step is currently parsing: a value, the members of an
object (accumulated so far), or the elements of an array. -/
inductive PMode where
  | val : PMode
  | members : List (String × Json) → PMode
  | elems : List Json → PMode

/-- The recursive core of the JSON parser.  In `val` mode it parses one JSON
value and returns it with the remaining input; in `members`/`elems` mode it
parses the members of an object / elements of an array up to and including
the closing delimiter.  Fuel decreases on every recursive call; at least one
input character is consumed for every two units of fuel, so
`2 * length + 2` units always suffice. -/
def pStep : Nat → PMode → List Char → Option (Json × List Char)
  | 0, _, _ => none
  | fuel + 1, PMode.val, cs =>
    match skipJsonWs cs with
    | [] => none
    | c :: rest =>
      if c == lbraceChar then
        match skipJsonWs rest with
        | d :: rest2 =>
          if d == rbraceChar then some (Json.obj [], rest2)
          else pStep fuel (PMode.members []) (skipJsonWs rest)
        | [] => none
      else if c == '[' then
        match skipJsonWs rest with
        | d :: rest2 =>
          if d == ']' then some (Json.arr [], rest2)
          else pStep fuel (PMode.elems []) (skipJsonWs rest)
        | [] => none
      else if c == dquoteChar then
        (pStringChars rest).map (fun p => (Json.str (String.mk p.1), p.2))
      else if c == 't' then
        match rest with
        | 'r' :: 'u' :: 'e' :: r => some (Json.bool true, r)
        | _ => none
      else if c == 'f' then
        match rest with
        | 'a' :: 'l' :: 's' :: 'e' :: r => some (Json.bool false, r)
        | _ => none
      else if c == 'n' then
        match rest with
        | 'u' :: 'l' :: 'l' :: r => some (Json.null, r)
        | _ => none
      else if c == '-' || c.isDigit then
        pNumber (c :: rest)
      else none
  | fuel + 1, PMode.members acc, cs =>
    match skipJsonWs cs with
    | c :: rest =>
      if c == dquoteChar then
        match pStringChars rest with
        | none => none
        | some (kChars, r1) =>
          match skipJsonWs r1 with
          | ':' :: r2 =>
            match pStep fuel PMode.val r2 with
            | none => none
            | some (v, r3) =>
              let acc2 := acc ++ [(String.mk kChars, v)]
              match skipJsonWs r3 with
              | ',' :: r4 => pStep fuel (PMode.members acc2) r4
              | d :: r4 =>
                if d == rbraceChar then some (Json.obj acc2, r4) else none
              | [] => none
          | _ => none
      else none
    | [] => none
  | fuel + 1, PMode.elems acc, cs =>
    match pStep fuel PMode.val cs with
    | none => none
    | some (v, r) =>
      match skipJsonWs r with
      | ',' :: r2 => pStep fuel (PMode.elems (acc ++ [v])) r2
      | d :: r2 => if d == ']' then some (Json.arr (acc ++ [v]), r2) else none
      | [] => none

/-- `JSON.parse`: parse one JSON value and require only whitespace after it.
Returns `none` where JavaScript throws a `SyntaxError`. -/
def jsonParse (s : String) : Option Json :=
  match pStep (2 * s.data.length + 2) PMode.val s.data with
  | some (v, rest) => if (skipJsonWs rest).isEmpty then some v else none
  | none => none

/-! ### The generation route (`POST` of `src/unnamed/part_000`) -/

/-- An error response body: `{ error: msg }`. -/
def errObj (msg : String) : Json :=
  Json.obj [("error", Json.str msg)]

/-- The per-request outcomes of the generation route's effects:
`apiKey` is `process.env.GEMINI_API_KEY || ''`; `schemaFileText` is what
`readFileContent(SCHEMA_PATH)` returns (that helper catches read errors and
returns `""`); `upstream` is the outcome of the Gemini call — either a
thrown error's message or the concatenation of the streamed chunk texts. -/
structure GenEnv where
  apiKey : String
  schemaFileText : String
  upstream : Except String String

/-- A response of the generation route: HTTP status and JSON body. -/
structure GenResponse where
  status : Nat
  body : Json

namespace GenerateRoute

/-- The tail of the generation handler after the request-field validation.
The composed prompt and the Gemini request configuration (model name,
`responseMimeType`, `responseSchema`, temperature 0.2) only influence the
upstream service, which `GenEnv.upstream` abstracts, so their text is not
modelled.  The `JSON.parse` of the upstream text runs on
`responseContent || '\x7b\x7d'`; a parse failure is caught by the
surrounding `catch`, whose message is the engine's `SyntaxError` text
(runtime-dependent; modelled by a fixed placeholder string). -/
def afterValidation (env : GenEnv) : GenResponse :=
  if env.schemaFileText == "" then
    ⟨500, errObj "schema.json could not be read."⟩
  else
    match jsonParse env.schemaFileText with
    | none => ⟨500, errObj "schema.json is not valid JSON."⟩
    | some guide =>
      match createDynamicJsonSchema guide with
      | none => ⟨500, errObj "Could not generate a dynamic schema."⟩
      | some _schema =>
        match env.upstream with
        | Except.error e => ⟨500, errObj e⟩
        | Except.ok text =>
          match jsonParse (if text == "" then "\x7b\x7d" else text) with
          | none => ⟨500, errObj "Unexpected token in JSON"⟩
          | some parsed => ⟨200, parsed⟩

/-- The generation route handler.  `body` is the outcome of `req.json()`
(a rejection is caught by the handler's `catch` and surfaced as a 500 with
the error's message).  Destructuring a `null` body throws a `TypeError`,
also caught as a 500 (runtime-dependent message, modelled by a fixed
placeholder string). -/
def POST (env : GenEnv) (body : Except String Json) : GenResponse :=
  if env.apiKey == "" then
    ⟨500, errObj "Gemini API key not configured."⟩
  else
    match body with
    | Except.error e => ⟨500, errObj e⟩
    | Except.ok Json.null =>
      ⟨500, errObj "Cannot destructure property of null"⟩
    | Except.ok b =>
      match getField b "studentName", getField b "transcript",
            getField b "gender" with
      | some sn, some tr, some ge =>
        if jsFalsy sn || jsFalsy tr || jsFalsy ge then
          ⟨400, errObj "Missing studentName, transcript, or gender in request body."⟩
        else afterValidation env
      | _, _, _ =>
        ⟨400, errObj "Missing studentName, transcript, or gender in request body."⟩

end GenerateRoute

/-! ### The fill route (`src/src/app/api/fill-doc/route.ts`)

`injectStudentName` runs `v.replace(/\(student name\)/gi, studentName)` on
every string value.  The regular expression is a literal phrase matched
case-insensitively with the global flag, and the replacement string is
subject to JavaScript's dollar-substitution patterns (`$$`, `$&`, `` $` ``,
`$'`; `$n` stays literal because the pattern has no capture groups). -/

/-- The matched phrase of the regular expression `/\(student name\)/gi`. -/
def placeholderChars : List Char := "(student name)".data

/-- Case-insensitive match of the pattern `pat` against a prefix of `l`;
returns the input after the match. -/
def ciStrip : List Char → List Char → Option (List Char)
  | [], l => some l
  | _ :: _, [] => none
  | p :: ps, c :: cs => if c.toLower == p.toLower then ciStrip ps cs else none

def dollarChar : Char := Char.ofNat 36
def backquoteChar : Char := Char.ofNat 96
def squoteChar : Char := Char.ofNat 39

/-- ECMAScript `GetSubstitution` for a pattern with no capture groups:
expand `$$`, `$&`, `` $` `` and `$'` in the replacement string; every other
`$` stays literal. -/
def getSubstitution (matched before after : List Char) : List Char → List Char
  | [] => []
  | c :: rest =>
    if c == dollarChar then
      match rest with
      | [] => [dollarChar]
      | d :: rs =>
        if d == dollarChar then
          dollarChar :: getSubstitution matched before after rs
        else if d == '&' then
          matched ++ getSubstitution matched before after rs
        else if d == backquoteChar then
          before ++ getSubstitution matched before after rs
        else if d == squoteChar then
          after ++ getSubstitution matched before after rs
        else
          -- `$` followed by a non-special character: both pass through
          -- literally, and the scan resumes after them (`d` is not `$`, so
          -- it cannot start a pattern itself).
          dollarChar :: d :: getSubstitution matched before after rs
    else c :: getSubstitution matched before after rest

/-- The scan of `String.prototype.replace` with the global flag: find each
(non-overlapping, leftmost) case-insensitive occurrence of the placeholder,
emit the processed replacement for it, and copy every other character.
`orig` and `pos` track the whole subject string and the current index, which
`` $` `` and `$'` refer to.  Fuel decreases by one per consumed character,
so `length` units suffice; the exhaustion branch is unreachable from
`jsStringReplaceAll`. -/
def jsReplaceGo (orig repl : List Char) : Nat → List Char → Nat → List Char
  | 0, s, _ => s
  | _ + 1, [], _ => []
  | fuel + 1, c :: cs, pos =>
    match ciStrip placeholderChars (c :: cs) with
    | some rest =>
      getSubstitution ((c :: cs).take placeholderChars.length) (orig.take pos)
          rest repl
        ++ jsReplaceGo orig repl fuel rest (pos + placeholderChars.length)
    | none => c :: jsReplaceGo orig repl fuel cs (pos + 1)

/-- `s.replace(/\(student name\)/gi, repl)`. -/
def jsStringReplaceAll (s repl : String) : String :=
  String.mk (jsReplaceGo s.data repl.data s.data.length s.data 0)

/-- `injectStudentName` from the fill route: replace the placeholder phrase
inside every string value, pass every other value through, then assign
`out["student_name"] = studentName`.  JavaScript objects cannot carry a key
twice, so the entry list of any reachable input is duplicate-free; the model
does not need that fact. -/
def injectStudentName (answers : List (String × Json)) (studentName : String) :
    List (String × Json) :=
  let out := answers.map (fun kv =>
    match kv.2 with
    | Json.str s => (kv.1, Json.str (jsStringReplaceAll s studentName))
    | v => (kv.1, v))
  jsSetField out "student_name" (Json.str studentName)

/-- The character class of `sanitizeFilename`'s regular expression
`/[\\/:*?"<>|]+/g`. -/
def isIllegalFilenameChar (c : Char) : Bool :=
  c == '\\' || c == '/' || c == ':' || c == '*' || c == '?' ||
  c == dquoteChar || c == '<' || c == '>' || c == '|'

/-- Replace every maximal run of illegal characters by one underscore.
`prevIllegal` records whether the previous character belonged to the current
run (so the run produces a single `_`), which is how the `+` quantifier with
the global flag behaves. -/
def collapseIllegalRuns (prevIllegal : Bool) : List Char → List Char
  | [] => []
  | c :: cs =>
    if isIllegalFilenameChar c then
      (if prevIllegal then [] else ['_']) ++ collapseIllegalRuns true cs
    else c :: collapseIllegalRuns false cs

/-- `sanitizeFilename` from the fill route:
`(name || "").replace(/[\\/:*?"<>|]+/g, "_").trim() || "Student"`. -/
def sanitizeFilename (name : String) : String :=
  let replaced := String.mk (jsTrimList (collapseIllegalRuns false name.data))
  if replaced == "" then "Student" else replaced

/-- The per-request outcomes of the fill route's effects: whether
`templates/blank_form.docx` exists, the outcome of reading it, the outcome
of `createReport` on the template with given data (the docx-templates
library is opaque here; a thrown render error carries its message), and the
outcome of the `fs.writeFile` to the output directory. -/
structure FillEnv where
  templateExists : Bool
  templateRead : Except String (List Nat)
  render : List (String × Json) → Except String (List Nat)
  writeResult : Except String Unit

/-- A response of the fill route: `success` is the 200 body
`{ ok: true, filename, savedPath, base64Docx }` — the rendered bytes stand
in for their base64 encoding, which no claim inspects — and `failure` is a
non-200 status with body `{ ok: false, error }`. -/
inductive FillResponse where
  | success : String → String → List Nat → FillResponse
  | failure : Nat → String → FillResponse
deriving DecidableEq

namespace FillDocRoute

/-- The fill route handler.  `body` is the outcome of `req.json()`; a
rejection, and every error thrown later in the `try` block (template read,
render, output write, and the `TypeError` from calling `.replace` on a
non-string `studentName` inside `sanitizeFilename`), is caught and surfaced
as a 500 with the error's message (`TypeError`/destructuring messages are
runtime-dependent and modelled by fixed placeholder strings).  The
`mkdirSync` of the output directory is effect-free in this model. -/
def POST (env : FillEnv) (body : Except String Json) : FillResponse :=
  match body with
  | Except.error e => FillResponse.failure 500 e
  | Except.ok Json.null =>
    FillResponse.failure 500 "Cannot destructure property of null"
  | Except.ok b =>
    match getField b "studentName", getField b "answers" with
    | some sn, some ans =>
      if jsFalsy sn || jsFalsy ans || !jsTypeofObject ans then
        FillResponse.failure 400 "studentName and answers are required."
      else if !env.templateExists then
        FillResponse.failure 404 "templates/blank_form.docx not found."
      else
        let data := injectStudentName (jsEntries ans) (jsToString sn)
        match env.templateRead with
        | Except.error e => FillResponse.failure 500 e
        | Except.ok _templateBuf =>
          match env.render data with
          | Except.error e => FillResponse.failure 500 e
          | Except.ok rendered =>
            match sn with
            | Json.str s =>
              let filename := sanitizeFilename s ++ "_CHC33021.docx"
              match env.writeResult with
              | Except.error e => FillResponse.failure 500 e
              | Except.ok _ =>
                FillResponse.success filename ("output/" ++ filename) rendered
            | _ => FillResponse.failure 500 "name.replace is not a function"
    | _, _ => FillResponse.failure 400 "studentName and answers are required."

end FillDocRoute

/-! ### Shape of the derived schema -/

theorem createDynamicJsonSchema_of_obj (g : Json) (kvs : List (String × Json))
    (hins : getInstructions g = some (Json.obj kvs)) :
    createDynamicJsonSchema g =
      (if ((kvs.map Prod.fst).filter jsIsNumericKey).length == 0 then none
       else some ⟨GType.OBJECT,
                  schemaProperties ((kvs.map Prod.fst).filter jsIsNumericKey).length,
                  requiredFields ((kvs.map Prod.fst).filter jsIsNumericKey).length⟩) := by
  unfold createDynamicJsonSchema
  rw [hins]
  rfl

theorem createDynamicJsonSchema_zero (g : Json) (kvs : List (String × Json))
    (hins : getInstructions g = some (Json.obj kvs))
    (hzero : (kvs.map Prod.fst).filter jsIsNumericKey = []) :
    createDynamicJsonSchema g = none := by
  rw [createDynamicJsonSchema_of_obj g kvs hins, hzero]
  rfl

theorem createDynamicJsonSchema_pos (g : Json) (kvs : List (String × Json))
    (N : Nat) (hins : getInstructions g = some (Json.obj kvs))
    (hN : ((kvs.map Prod.fst).filter jsIsNumericKey).length = N)
    (hpos : 1 ≤ N) :
    createDynamicJsonSchema g =
      some ⟨GType.OBJECT, schemaProperties N, requiredFields N⟩ := by
  rw [createDynamicJsonSchema_of_obj g kvs hins, hN]
  have hne : (N == 0) = false := by
    simp only [beq_eq_false_iff_ne, ne_eq]
    omega
  rw [hne]
  simp

theorem length_requiredFields (n : Nat) : (requiredFields n).length = 2 * n := by
  induction n with
  | zero => rfl
  | succ m ih =>
    rw [requiredFields, List.range_succ, List.flatMap_append] at *
    simp only [List.length_append] at *
    rw [ih]
    simp
    omega

theorem map_fst_schemaProperties (n : Nat) :
    (schemaProperties n).map Prod.fst = requiredFields n := by
  rw [schemaProperties, requiredFields, List.map_flatMap]
  rfl

theorem schemaProperties_type (n : Nat) :
    ∀ p ∈ schemaProperties n, p.2.type = GType.STRING := by
  intro p hp
  rw [schemaProperties] at hp
  rcases List.mem_flatMap.mp hp with ⟨j, _hj, hpj⟩
  simp only [criterionFields, List.mem_cons, List.mem_singleton,
    List.not_mem_nil, or_false] at hpj
  rcases hpj with h | h <;> rw [h]

theorem mem_requiredFields (i n : Nat) (h1 : 1 ≤ i) (h2 : i ≤ n) :
    perfKey i ∈ requiredFields n ∧ actionKey i ∈ requiredFields n := by
  have hj : i - 1 ∈ List.range n := by
    rw [List.mem_range]
    omega
  have hi : i - 1 + 1 = i := by omega
  constructor <;>
    · rw [requiredFields]
      refine List.mem_flatMap.mpr ⟨i - 1, hj, ?_⟩
      rw [hi]
      simp

/-- Claim C1: for every rubric object whose
`rolePlayScenerio.["instruction for roleplay"]` entry has exactly `N` keys
accepted by the numeric filter (`N ≥ 1`), the derived response schema
declares exactly `2 * N` required fields, named `performance_observed_i` and
`example_action_i` for `i = 1..N`, each of string type. -/
theorem claim1_schema_shape (guideData : Json) (kvs : List (String × Json))
    (N : Nat) (hins : getInstructions guideData = some (Json.obj kvs))
    (hN : ((kvs.map Prod.fst).filter jsIsNumericKey).length = N)
    (hpos : 1 ≤ N) :
    createDynamicJsonSchema guideData =
      some ⟨GType.OBJECT, schemaProperties N, requiredFields N⟩ ∧
    (requiredFields N).length = 2 * N ∧
    (∀ i, 1 ≤ i → i ≤ N →
      perfKey i ∈ requiredFields N ∧ actionKey i ∈ requiredFields N) ∧
    (schemaProperties N).map Prod.fst = requiredFields N ∧
    (∀ p ∈ schemaProperties N, p.2.type = GType.STRING) :=
  ⟨createDynamicJsonSchema_pos guideData kvs N hins hN hpos,
   length_requiredFields N,
   fun i hi1 hi2 => mem_requiredFields i N hi1 hi2,
   map_fst_schemaProperties N,
   schemaProperties_type N⟩

/-- Witness for C1 at a concrete two-criterion rubric. -/
theorem claim1_schema_shape_witness :
    createDynamicJsonSchema
        (Json.obj [("rolePlayScenerio", Json.obj
          [("instruction for roleplay", Json.obj
            [("1", Json.str "q"), ("2", Json.str "r")])])]) =
      some ⟨GType.OBJECT, schemaProperties 2, requiredFields 2⟩ ∧
    (requiredFields 2).length = 2 * 2 ∧
    perfKey 1 ∈ requiredFields 2 :=
  ⟨(claim1_schema_shape
      (Json.obj [("rolePlayScenerio", Json.obj
        [("instruction for roleplay", Json.obj
          [("1", Json.str "q"), ("2", Json.str "r")])])])
      [("1", Json.str "q"), ("2", Json.str "r")] 2
      rfl rfl (by decide)).1,
   (claim1_schema_shape
      (Json.obj [("rolePlayScenerio", Json.obj
        [("instruction for roleplay", Json.obj
          [("1", Json.str "q"), ("2", Json.str "r")])])])
      [("1", Json.str "q"), ("2", Json.str "r")] 2
      rfl rfl (by decide)).2.1,
   ((claim1_schema_shape
      (Json.obj [("rolePlayScenerio", Json.obj
        [("instruction for roleplay", Json.obj
          [("1", Json.str "q"), ("2", Json.str "r")])])])
      [("1", Json.str "q"), ("2", Json.str "r")] 2
      rfl rfl (by decide)).2.2.1 1 (by decide) (by decide)).1⟩

/-- Claim C8: schema derivation depends only on the count of keys accepted
by the numeric filter, not on their values — two instruction objects whose
numeric-key counts agree yield the same schema, and its field names are
indexed `1..N` regardless of what the keys look like. -/
theorem claim8_count_only (g g' : Json) (kvs kvs' : List (String × Json))
    (N : Nat)
    (hins : getInstructions g = some (Json.obj kvs))
    (hins' : getInstructions g' = some (Json.obj kvs'))
    (hN : ((kvs.map Prod.fst).filter jsIsNumericKey).length = N)
    (hN' : ((kvs'.map Prod.fst).filter jsIsNumericKey).length = N)
    (hpos : 1 ≤ N) :
    createDynamicJsonSchema g = createDynamicJsonSchema g' ∧
    createDynamicJsonSchema g =
      some ⟨GType.OBJECT, schemaProperties N, requiredFields N⟩ ∧
    (∀ i, 1 ≤ i → i ≤ N →
      perfKey i ∈ requiredFields N ∧ actionKey i ∈ requiredFields N) := by
  have h1 := createDynamicJsonSchema_pos g kvs N hins hN hpos
  have h2 := createDynamicJsonSchema_pos g' kvs' N hins' hN' hpos
  exact ⟨h1.trans h2.symm, h1, fun i hi1 hi2 => mem_requiredFields i N hi1 hi2⟩

/-- Witness for C8: the keys `"0"`, `"-3"`, `"2.5"`, `"7"` — none of them
the contiguous strings `"1".."4"` — give the same schema as `"1".."4"`,
with fields indexed 1 through 4. -/
theorem claim8_count_only_witness :
    createDynamicJsonSchema
        (Json.obj [("rolePlayScenerio", Json.obj
          [("instruction for roleplay", Json.obj
            [("0", Json.str "a"), ("-3", Json.str "b"),
             ("2.5", Json.str "c"), ("7", Json.str "d")])])]) =
      createDynamicJsonSchema
        (Json.obj [("rolePlayScenerio", Json.obj
          [("instruction for roleplay", Json.obj
            [("1", Json.str "a"), ("2", Json.str "b"),
             ("3", Json.str "c"), ("4", Json.str "d")])])]) ∧
    createDynamicJsonSchema
        (Json.obj [("rolePlayScenerio", Json.obj
          [("instruction for roleplay", Json.obj
            [("0", Json.str "a"), ("-3", Json.str "b"),
             ("2.5", Json.str "c"), ("7", Json.str "d")])])]) =
      some ⟨GType.OBJECT, schemaProperties 4, requiredFields 4⟩ :=
  ⟨(claim8_count_only
      (Json.obj [("rolePlayScenerio", Json.obj
        [("instruction for roleplay", Json.obj
          [("0", Json.str "a"), ("-3", Json.str "b"),
           ("2.5", Json.str "c"), ("7", Json.str "d")])])])
      (Json.obj [("rolePlayScenerio", Json.obj
        [("instruction for roleplay", Json.obj
          [("1", Json.str "a"), ("2", Json.str "b"),
           ("3", Json.str "c"), ("4", Json.str "d")])])])
      [("0", Json.str "a"), ("-3", Json.str "b"),
       ("2.5", Json.str "c"), ("7", Json.str "d")]
      [("1", Json.str "a"), ("2", Json.str "b"),
       ("3", Json.str "c"), ("4", Json.str "d")] 4
      rfl rfl rfl rfl (by decide)).1,
   (claim8_count_only
      (Json.obj [("rolePlayScenerio", Json.obj
        [("instruction for roleplay", Json.obj
          [("0", Json.str "a"), ("-3", Json.str "b"),
           ("2.5", Json.str "c"), ("7", Json.str "d")])])])
      (Json.obj [("rolePlayScenerio", Json.obj
        [("instruction for roleplay", Json.obj
          [("1", Json.str "a"), ("2", Json.str "b"),
           ("3", Json.str "c"), ("4", Json.str "d")])])])
      [("0", Json.str "a"), ("-3", Json.str "b"),
       ("2.5", Json.str "c"), ("7", Json.str "d")]
      [("1", Json.str "a"), ("2", Json.str "b"),
       ("3", Json.str "c"), ("4", Json.str "d")] 4
      rfl rfl rfl rfl (by decide)).2.1⟩

/-! ### Behaviour of the generation handler -/

theorem genPOST_validated (env : GenEnv) (b sn tr ge : Json)
    (hkey : env.apiKey ≠ "")
    (hsn : getField b "studentName" = some sn) (hsnt : jsFalsy sn = false)
    (htr : getField b "transcript" = some tr) (htrt : jsFalsy tr = false)
    (hge : getField b "gender" = some ge) (hget : jsFalsy ge = false) :
    GenerateRoute.POST env (Except.ok b) = GenerateRoute.afterValidation env := by
  have hkey' : (env.apiKey == "") = false := beq_eq_false_iff_ne.mpr hkey
  cases b with
  | null => simp [getField] at hsn
  | bool v => simp [getField] at hsn
  | num v => simp [getField] at hsn
  | str v => simp [getField] at hsn
  | arr v => simp [getField] at hsn
  | obj fields =>
    simp [GenerateRoute.POST, hkey', hsn, htr, hge, hsnt, htrt, hget]

theorem afterValidation_schema_none (env : GenEnv) (guide : Json)
    (hfile : env.schemaFileText ≠ "")
    (hparse : jsonParse env.schemaFileText = some guide)
    (hschema : createDynamicJsonSchema guide = none) :
    GenerateRoute.afterValidation env =
      ⟨500, errObj "Could not generate a dynamic schema."⟩ := by
  have hfile' : (env.schemaFileText == "") = false := beq_eq_false_iff_ne.mpr hfile
  simp [GenerateRoute.afterValidation, hfile', hparse, hschema]

theorem afterValidation_upstream (env : GenEnv) (guide : Json)
    (sch : DynamicSchema) (text : String)
    (hfile : env.schemaFileText ≠ "")
    (hparse : jsonParse env.schemaFileText = some guide)
    (hschema : createDynamicJsonSchema guide = some sch)
    (hup : env.upstream = Except.ok text) :
    GenerateRoute.afterValidation env =
      (match jsonParse (if text == "" then "\x7b\x7d" else text) with
       | none => ⟨500, errObj "Unexpected token in JSON"⟩
       | some parsed => (⟨200, parsed⟩ : GenResponse)) := by
  have hfile' : (env.schemaFileText == "") = false := beq_eq_false_iff_ne.mpr hfile
  simp [GenerateRoute.afterValidation, hfile', hparse, hschema, hup]

/-- Claim C7: a rubric whose instruction set has zero numeric-keyed entries
makes schema derivation fail (no schema is produced) and makes the
generation endpoint answer with a 500 error instead of an empty-but-valid
response shape. -/
theorem claim7_zero_criteria (env : GenEnv) (b guide : Json)
    (kvs : List (String × Json)) (sn tr ge : Json)
    (hkey : env.apiKey ≠ "")
    (hsn : getField b "studentName" = some sn) (hsnt : jsFalsy sn = false)
    (htr : getField b "transcript" = some tr) (htrt : jsFalsy tr = false)
    (hge : getField b "gender" = some ge) (hget : jsFalsy ge = false)
    (hfile : env.schemaFileText ≠ "")
    (hparse : jsonParse env.schemaFileText = some guide)
    (hins : getInstructions guide = some (Json.obj kvs))
    (hzero : (kvs.map Prod.fst).filter jsIsNumericKey = []) :
    createDynamicJsonSchema guide = none ∧
    GenerateRoute.POST env (Except.ok b) =
      ⟨500, errObj "Could not generate a dynamic schema."⟩ := by
  have hschema := createDynamicJsonSchema_zero guide kvs hins hzero
  refine ⟨hschema, ?_⟩
  rw [genPOST_validated env b sn tr ge hkey hsn hsnt htr htrt hge hget]
  exact afterValidation_schema_none env guide hfile hparse hschema

/-- Witness for C7 at a rubric whose only instruction key is `"a"`. -/
theorem claim7_zero_criteria_witness :
    createDynamicJsonSchema
        (Json.obj [("rolePlayScenerio", Json.obj
          [("instruction for roleplay", Json.obj [("a", Json.str "x")])])]) =
      none ∧
    GenerateRoute.POST
        ⟨"k",
         "\x7b\"rolePlayScenerio\":\x7b\"instruction for roleplay\":\x7b\"a\":\"x\"\x7d\x7d\x7d",
         Except.ok "\x7b\x7d"⟩
        (Except.ok (Json.obj
          [("studentName", Json.str "J"), ("transcript", Json.str "t"),
           ("gender", Json.str "f")])) =
      ⟨500, errObj "Could not generate a dynamic schema."⟩ :=
  claim7_zero_criteria
    ⟨"k",
     "\x7b\"rolePlayScenerio\":\x7b\"instruction for roleplay\":\x7b\"a\":\"x\"\x7d\x7d\x7d",
     Except.ok "\x7b\x7d"⟩
    (Json.obj [("studentName", Json.str "J"), ("transcript", Json.str "t"),
               ("gender", Json.str "f")])
    (Json.obj [("rolePlayScenerio", Json.obj
      [("instruction for roleplay", Json.obj [("a", Json.str "x")])])])
    [("a", Json.str "x")]
    (Json.str "J") (Json.str "t") (Json.str "f")
    (by decide) rfl rfl rfl rfl rfl rfl (by decide) rfl rfl rfl

/-- Counterexample to claim C2: with the API key set, a valid one-criterion
rubric and a request with all three fields, an upstream text `"\x7b\x7d"`
parses as the empty object, yet the endpoint returns it with status 200 —
even though `performance_observed_1` is required by the derived schema and
absent from the body.  The handler never checks the required fields. -/
theorem claim2_counterexample :
    GenerateRoute.POST
        ⟨"k",
         "\x7b\"rolePlayScenerio\":\x7b\"instruction for roleplay\":\x7b\"1\":\"x\"\x7d\x7d\x7d",
         Except.ok "\x7b\x7d"⟩
        (Except.ok (Json.obj
          [("studentName", Json.str "J"), ("transcript", Json.str "t"),
           ("gender", Json.str "f")])) =
      ⟨200, Json.obj []⟩ ∧
    jsonParse
        "\x7b\"rolePlayScenerio\":\x7b\"instruction for roleplay\":\x7b\"1\":\"x\"\x7d\x7d\x7d" =
      some (Json.obj [("rolePlayScenerio", Json.obj
        [("instruction for roleplay", Json.obj [("1", Json.str "x")])])]) ∧
    createDynamicJsonSchema
        (Json.obj [("rolePlayScenerio", Json.obj
          [("instruction for roleplay", Json.obj [("1", Json.str "x")])])]) =
      some ⟨GType.OBJECT, schemaProperties 1, requiredFields 1⟩ ∧
    "performance_observed_1" ∈ requiredFields 1 ∧
    getField (Json.obj []) "performance_observed_1" = none :=
  ⟨rfl, rfl, rfl, by decide, rfl⟩

/-- Claim C2 (amended): the generation endpoint parses the upstream text as
JSON (an empty text is replaced by the literal `"\x7b\x7d"` first) and
returns a 500 error when parsing fails; when parsing succeeds it returns
status 200 with the parsed object unchanged and does not check whether the
schema's required fields are present, so a 200 body may lack them. -/
theorem claim2_amended (env : GenEnv) (b guide : Json) (sch : DynamicSchema)
    (sn tr ge : Json) (text : String)
    (hkey : env.apiKey ≠ "")
    (hsn : getField b "studentName" = some sn) (hsnt : jsFalsy sn = false)
    (htr : getField b "transcript" = some tr) (htrt : jsFalsy tr = false)
    (hge : getField b "gender" = some ge) (hget : jsFalsy ge = false)
    (hfile : env.schemaFileText ≠ "")
    (hparse : jsonParse env.schemaFileText = some guide)
    (hschema : createDynamicJsonSchema guide = some sch)
    (hup : env.upstream = Except.ok text) :
    (jsonParse (if text == "" then "\x7b\x7d" else text) = none →
      GenerateRoute.POST env (Except.ok b) =
        ⟨500, errObj "Unexpected token in JSON"⟩) ∧
    (∀ j, jsonParse (if text == "" then "\x7b\x7d" else text) = some j →
      GenerateRoute.POST env (Except.ok b) = ⟨200, j⟩) := by
  have hpost : GenerateRoute.POST env (Except.ok b) =
      (match jsonParse (if text == "" then "\x7b\x7d" else text) with
       | none => ⟨500, errObj "Unexpected token in JSON"⟩
       | some parsed => (⟨200, parsed⟩ : GenResponse)) := by
    rw [genPOST_validated env b sn tr ge hkey hsn hsnt htr htrt hge hget]
    exact afterValidation_upstream env guide sch text hfile hparse hschema hup
  constructor
  · intro hnone
    rw [hpost, hnone]
  · intro j hj
    rw [hpost, hj]

/-- Witness for (amended) C2: a failing upstream parse yields a 500, and an
upstream `"\x7b\x7d"` yields a 200 with the empty object body. -/
theorem claim2_amended_witness :
    GenerateRoute.POST
        ⟨"k",
         "\x7b\"rolePlayScenerio\":\x7b\"instruction for roleplay\":\x7b\"1\":\"x\"\x7d\x7d\x7d",
         Except.ok "not json"⟩
        (Except.ok (Json.obj
          [("studentName", Json.str "J"), ("transcript", Json.str "t"),
           ("gender", Json.str "f")])) =
      ⟨500, errObj "Unexpected token in JSON"⟩ ∧
    GenerateRoute.POST
        ⟨"k",
         "\x7b\"rolePlayScenerio\":\x7b\"instruction for roleplay\":\x7b\"1\":\"x\"\x7d\x7d\x7d",
         Except.ok "\x7b\x7d"⟩
        (Except.ok (Json.obj
          [("studentName", Json.str "J"), ("transcript", Json.str "t"),
           ("gender", Json.str "f")])) =
      ⟨200, Json.obj []⟩ :=
  ⟨(claim2_amended
      ⟨"k",
       "\x7b\"rolePlayScenerio\":\x7b\"instruction for roleplay\":\x7b\"1\":\"x\"\x7d\x7d\x7d",
       Except.ok "not json"⟩
      (Json.obj [("studentName", Json.str "J"), ("transcript", Json.str "t"),
                 ("gender", Json.str "f")])
      (Json.obj [("rolePlayScenerio", Json.obj
        [("instruction for roleplay", Json.obj [("1", Json.str "x")])])])
      ⟨GType.OBJECT, schemaProperties 1, requiredFields 1⟩
      (Json.str "J") (Json.str "t") (Json.str "f") "not json"
      (by decide) rfl rfl rfl rfl rfl rfl (by decide) rfl rfl rfl).1 rfl,
   (claim2_amended
      ⟨"k",
       "\x7b\"rolePlayScenerio\":\x7b\"instruction for roleplay\":\x7b\"1\":\"x\"\x7d\x7d\x7d",
       Except.ok "\x7b\x7d"⟩
      (Json.obj [("studentName", Json.str "J"), ("transcript", Json.str "t"),
                 ("gender", Json.str "f")])
      (Json.obj [("rolePlayScenerio", Json.obj
        [("instruction for roleplay", Json.obj [("1", Json.str "x")])])])
      ⟨GType.OBJECT, schemaProperties 1, requiredFields 1⟩
      (Json.str "J") (Json.str "t") (Json.str "f") "\x7b\x7d"
      (by decide) rfl rfl rfl rfl rfl rfl (by decide) rfl rfl rfl).2
     (Json.obj []) rfl⟩

/-! ### Behaviour of the fill handler -/

/-- Claim C10: a fill request whose `studentName` is present but equal to
the empty string gets the 400 validation response — presence is checked by
falsiness, so an empty name acts like an absent one — and the response is
the same for every environment, so no template read, render or write
outcome can influence it. -/
theorem claim10_empty_name (env : FillEnv) (kvs : List (String × Json))
    (h : List.lookup "studentName" kvs = some (Json.str "")) :
    FillDocRoute.POST env (Except.ok (Json.obj kvs)) =
      FillResponse.failure 400 "studentName and answers are required." := by
  have hget : getField (Json.obj kvs) "studentName" = some (Json.str "") := h
  cases hans : getField (Json.obj kvs) "answers" with
  | none => simp [FillDocRoute.POST, hget, hans]
  | some a => simp [FillDocRoute.POST, hget, hans, jsFalsy]

/-- Witness for C10 at a concrete request with an empty student name. -/
theorem claim10_empty_name_witness :
    FillDocRoute.POST
        ⟨true, Except.ok [0], fun _ => Except.ok [1], Except.ok ()⟩
        (Except.ok (Json.obj
          [("studentName", Json.str ""), ("answers", Json.obj [])])) =
      FillResponse.failure 400 "studentName and answers are required." :=
  claim10_empty_name
    ⟨true, Except.ok [0], fun _ => Except.ok [1], Except.ok ()⟩
    [("studentName", Json.str ""), ("answers", Json.obj [])] rfl

/-- Counterexample to claim C3: a request whose render succeeds (bytes
`[1,2,3]`) but whose output write fails is answered with a 500 error
carrying the write error's message — not with the success response the
claim asserts. -/
theorem claim3_counterexample :
    FillDocRoute.POST
        ⟨true, Except.ok [0], fun _ => Except.ok [1, 2, 3],
         Except.error "EACCES: permission denied"⟩
        (Except.ok (Json.obj
          [("studentName", Json.str "Jane"), ("answers", Json.obj [])])) =
      FillResponse.failure 500 "EACCES: permission denied" ∧
    FillResponse.failure 500 "EACCES: permission denied" ≠
      FillResponse.success "Jane_CHC33021.docx" "output/Jane_CHC33021.docx"
        [1, 2, 3] :=
  ⟨rfl, by decide⟩

/-- Claim C3 (amended): when rendering succeeds but the output write fails,
the fill endpoint returns a 500 error carrying the write error's message —
`await fs.writeFile(...)` sits inside the `try` block, so its rejection
propagates to the `catch`; the success response requires both the render
and the write to succeed. -/
theorem claim3_amended (env : FillEnv) (kvs : List (String × Json))
    (s e : String) (tb rendered : List Nat)
    (hs : s ≠ "")
    (htmpl : env.templateExists = true)
    (hread : env.templateRead = Except.ok tb)
    (hrender : env.render (injectStudentName kvs s) = Except.ok rendered)
    (hwrite : env.writeResult = Except.error e) :
    FillDocRoute.POST env
        (Except.ok (Json.obj
          [("studentName", Json.str s), ("answers", Json.obj kvs)])) =
      FillResponse.failure 500 e := by
  have hs' : (s == "") = false := beq_eq_false_iff_ne.mpr hs
  have hans : List.lookup "answers"
      [("studentName", Json.str s), ("answers", Json.obj kvs)] =
      some (Json.obj kvs) := rfl
  simp [FillDocRoute.POST, getField, jsFalsy, jsTypeofObject, hs', hans,
    htmpl, hread, jsEntries, jsToString, hrender, hwrite]

/-- Witness for (amended) C3. -/
theorem claim3_amended_witness :
    FillDocRoute.POST
        ⟨true, Except.ok [0], fun _ => Except.ok [9, 9], Except.error "disk full"⟩
        (Except.ok (Json.obj
          [("studentName", Json.str "Ann"), ("answers", Json.obj [])])) =
      FillResponse.failure 500 "disk full" :=
  claim3_amended
    ⟨true, Except.ok [0], fun _ => Except.ok [9, 9], Except.error "disk full"⟩
    [] "Ann" "disk full" [0] [9, 9] (by decide) rfl rfl rfl rfl

/-- Counterexample to claim C4: for `studentName` `"Jane Doe"` the fill
endpoint's filename is `"Jane Doe_CHC33021.docx"` — the space survives,
because the sanitizer's character class `[\\/:*?"<>|]+` does not contain a
space — which differs from the claimed `"Jane_Doe_CHC33021.docx"`. -/
theorem claim4_counterexample :
    FillDocRoute.POST
        ⟨true, Except.ok [0], fun _ => Except.ok [1, 2, 3], Except.ok ()⟩
        (Except.ok (Json.obj
          [("studentName", Json.str "Jane Doe"), ("answers", Json.obj [])])) =
      FillResponse.success "Jane Doe_CHC33021.docx"
        "output/Jane Doe_CHC33021.docx" [1, 2, 3] ∧
    "Jane Doe_CHC33021.docx" ≠ "Jane_Doe_CHC33021.docx" :=
  ⟨rfl, by decide⟩

/-- Claim C4 (amended): for the input `studentName` `"Jane Doe"` (with any
successful render and write) the returned filename is
`"Jane Doe_CHC33021.docx"`: only the characters `\ / : * ? " < > |` are
replaced by underscores before the fixed qualification-code suffix, and the
space is kept. -/
theorem claim4_amended (env : FillEnv) (kvs : List (String × Json))
    (tb rendered : List Nat)
    (htmpl : env.templateExists = true)
    (hread : env.templateRead = Except.ok tb)
    (hrender : env.render (injectStudentName kvs "Jane Doe") = Except.ok rendered)
    (hwrite : env.writeResult = Except.ok ()) :
    FillDocRoute.POST env
        (Except.ok (Json.obj
          [("studentName", Json.str "Jane Doe"), ("answers", Json.obj kvs)])) =
      FillResponse.success "Jane Doe_CHC33021.docx"
        "output/Jane Doe_CHC33021.docx" rendered := by
  have hans : List.lookup "answers"
      [("studentName", Json.str "Jane Doe"), ("answers", Json.obj kvs)] =
      some (Json.obj kvs) := rfl
  have hsan : sanitizeFilename "Jane Doe" = "Jane Doe" := rfl
  simp [FillDocRoute.POST, getField, jsFalsy, jsTypeofObject, hans, htmpl,
    hread, jsEntries, jsToString, hrender, hwrite, hsan]

/-- Witness for (amended) C4. -/
theorem claim4_amended_witness :
    FillDocRoute.POST
        ⟨true, Except.ok [0], fun _ => Except.ok [7], Except.ok ()⟩
        (Except.ok (Json.obj
          [("studentName", Json.str "Jane Doe"), ("answers", Json.obj [])])) =
      FillResponse.success "Jane Doe_CHC33021.docx"
        "output/Jane Doe_CHC33021.docx" [7] :=
  claim4_amended
    ⟨true, Except.ok [0], fun _ => Except.ok [7], Except.ok ()⟩
    [] [0] [7] rfl rfl rfl rfl

/-! ### Safety of the sanitized filename -/

theorem mem_collapseIllegalRuns (l : List Char) :
    ∀ prev : Bool, ∀ c ∈ collapseIllegalRuns prev l,
      isIllegalFilenameChar c = false := by
  induction l with
  | nil =>
    intro prev c hc
    simp [collapseIllegalRuns] at hc
  | cons a as ih =>
    intro prev c hc
    by_cases ha : isIllegalFilenameChar a = true
    · simp only [collapseIllegalRuns, ha, if_true] at hc
      rcases List.mem_append.mp hc with h | h
      · cases prev with
        | true => simp at h
        | false =>
          simp at h
          subst h
          decide
      · exact ih true c h
    · simp only [collapseIllegalRuns, ha, if_false] at hc
      rcases List.mem_cons.mp hc with h | h
      · subst h
        exact Bool.not_eq_true _ ▸ ha
      · exact ih false c h

theorem mem_jsTrimList (l : List Char) : ∀ c ∈ jsTrimList l, c ∈ l := by
  intro c hc
  rw [jsTrimList] at hc
  have h1 := List.mem_reverse.mp hc
  have h2 := (List.dropWhile_sublist (l := (l.dropWhile jsWhitespaceChar).reverse)
    (p := jsWhitespaceChar)).mem h1
  have h3 := List.mem_reverse.mp h2
  exact (List.dropWhile_sublist (l := l) (p := jsWhitespaceChar)).mem h3

theorem ws_not_illegal (c : Char) (h : jsWhitespaceChar c = true) :
    isIllegalFilenameChar c = false := by
  by_cases hil : isIllegalFilenameChar c = true
  · simp only [isIllegalFilenameChar, Bool.or_eq_true, beq_iff_eq] at hil
    rcases hil with ((((((((h1 | h1) | h1) | h1) | h1) | h1) | h1) | h1) | h1) <;>
      (subst h1; exact absurd h (by decide))
  · exact Bool.not_eq_true _ ▸ hil

theorem collapse_of_all_ws (l : List Char)
    (h : ∀ c ∈ l, jsWhitespaceChar c = true) :
    collapseIllegalRuns false l = l := by
  induction l with
  | nil => rfl
  | cons a as ih =>
    have ha : isIllegalFilenameChar a = false :=
      ws_not_illegal a (h a (List.mem_cons_self a as))
    simp only [collapseIllegalRuns, ha, Bool.false_eq_true, if_false,
      List.cons.injEq, true_and]
    exact ih (fun c hc => h c (List.mem_cons_of_mem a hc))

/-- Claim C6: for every input string the sanitized filename contains none of
the characters `\ / : * ? " < > |`, and an empty or whitespace-only input
yields the non-empty default name `"Student"`. -/
theorem claim6_sanitize (s : String) :
    (∀ c ∈ (sanitizeFilename s).data, isIllegalFilenameChar c = false) ∧
    (s.data.all jsWhitespaceChar = true →
      sanitizeFilename s = "Student" ∧ sanitizeFilename s ≠ "") := by
  constructor
  · intro c hc
    rw [sanitizeFilename] at hc
    by_cases hrep : (String.mk (jsTrimList (collapseIllegalRuns false s.data)) == "")
      = true
    · rw [if_pos hrep] at hc
      have : c ∈ "Student".data := hc
      fin_cases this <;> decide
    · rw [if_neg (by simp [hrep])] at hc
      have hmem : c ∈ jsTrimList (collapseIllegalRuns false s.data) := hc
      exact mem_collapseIllegalRuns s.data false c
        (mem_jsTrimList _ c hmem)
  · intro hws
    have hall : ∀ c ∈ s.data, jsWhitespaceChar c = true := by
      intro c hcmem
      exact List.all_eq_true.mp hws c hcmem
    have hcoll : collapseIllegalRuns false s.data = s.data :=
      collapse_of_all_ws s.data hall
    have htrim : jsTrimList s.data = [] := by
      rw [jsTrimList]
      have hdrop : s.data.dropWhile jsWhitespaceChar = [] :=
        List.dropWhile_eq_nil_iff.mpr (fun c hc => hall c hc)
      rw [hdrop]
      rfl
    have hrep : String.mk (jsTrimList (collapseIllegalRuns false s.data)) = "" := by
      rw [hcoll, htrim]
    rw [sanitizeFilename, hrep]
    exact ⟨rfl, by decide⟩

/-- Witness for C6: a name with a backslash sanitizes to a legal-character
string, and a whitespace-only name falls back to `"Student"`. -/
theorem claim6_sanitize_witness :
    isIllegalFilenameChar 'a' = false ∧ sanitizeFilename "  " = "Student" :=
  ⟨(claim6_sanitize "a\\b").1 'a' (by decide),
   ((claim6_sanitize "  ").2 (by decide)).1⟩

/-! ### The placeholder replacement and the `student_name` assignment -/

/-- The replacement scan the spec describes: every (leftmost,
non-overlapping) case-insensitive occurrence of the placeholder phrase is
replaced by the replacement text itself, taken literally.  This is the
refinement target for `jsReplaceGo`, which additionally interprets
dollar-substitution patterns; it follows the spec's words, not the code. -/
def specReplaceGo (repl : List Char) : Nat → List Char → List Char
  | 0, s => s
  | _ + 1, [] => []
  | fuel + 1, c :: cs =>
    match ciStrip placeholderChars (c :: cs) with
    | some rest => repl ++ specReplaceGo repl fuel rest
    | none => c :: specReplaceGo repl fuel cs

/-- Literal replacement of every case-insensitive occurrence of the
placeholder phrase in `s` by `repl` (the spec-side description). -/
def specReplacePlaceholder (s repl : String) : String :=
  String.mk (specReplaceGo repl.data s.data.length s.data)

/-- The spec-side per-value transform of the answer mapping: string values
get the placeholder replaced by the student name, everything else passes
through unchanged. -/
def specTransformValue (name : String) : Json → Json
  | Json.str s => Json.str (specReplacePlaceholder s name)
  | v => v

theorem getSubstitution_no_dollar (m b a repl : List Char)
    (h : dollarChar ∉ repl) : getSubstitution m b a repl = repl := by
  induction repl with
  | nil => rfl
  | cons c rest ih =>
    have hc : (c == dollarChar) = false := by
      simp only [beq_eq_false_iff_ne, ne_eq]
      intro hEq
      exact h (hEq ▸ List.mem_cons_self c rest)
    rw [getSubstitution.eq_def]
    simp only [hc, Bool.false_eq_true, if_false]
    rw [ih (fun hm => h (List.mem_cons_of_mem c hm))]

theorem jsReplaceGo_no_dollar (orig repl : List Char) (h : dollarChar ∉ repl) :
    ∀ fuel s pos, jsReplaceGo orig repl fuel s pos = specReplaceGo repl fuel s := by
  intro fuel
  induction fuel with
  | zero => intro s pos; rfl
  | succ f ih =>
    intro s pos
    cases s with
    | nil => rfl
    | cons c cs =>
      cases hstrip : ciStrip placeholderChars (c :: cs) with
      | some rest =>
        simp only [jsReplaceGo, specReplaceGo, hstrip]
        rw [getSubstitution_no_dollar _ _ _ repl h, ih]
      | none =>
        simp only [jsReplaceGo, specReplaceGo, hstrip]
        rw [ih]

theorem jsStringReplaceAll_no_dollar (s repl : String)
    (h : dollarChar ∉ repl.data) :
    jsStringReplaceAll s repl = specReplacePlaceholder s repl := by
  unfold jsStringReplaceAll specReplacePlaceholder
  rw [jsReplaceGo_no_dollar s.data repl.data h]

theorem mem_jsSetField_of_ne (l : List (String × Json)) (k : String) (v : Json)
    (p : String × Json) (hp : p ∈ l) (hne : p.1 ≠ k) :
    p ∈ jsSetField l k v := by
  unfold jsSetField
  by_cases hany : l.any (fun q => q.1 == k) = true
  · rw [if_pos hany]
    refine List.mem_map.mpr ⟨p, hp, ?_⟩
    have hpk : (p.1 == k) = false := beq_eq_false_iff_ne.mpr hne
    simp [hpk]
  · rw [if_neg hany]
    exact List.mem_append_left _ hp

theorem lookup_map_upsert (k : String) (v : Json) :
    ∀ l : List (String × Json), l.any (fun q => q.1 == k) = true →
      List.lookup k (l.map (fun p => if p.1 == k then (k, v) else p)) =
        some v := by
  intro l
  induction l with
  | nil => intro hany; simp at hany
  | cons p ps ih =>
    intro hany
    obtain ⟨p1, p2⟩ := p
    by_cases hp : (p1 == k) = true
    · rw [List.map_cons, if_pos hp]
      simp [List.lookup]
    · have hk : (k == p1) = false := by
        rw [BEq.comm]
        exact Bool.not_eq_true _ ▸ hp
      have htail : ps.any (fun q => q.1 == k) = true := by
        simp only [List.any_cons, hp, Bool.false_or] at hany
        exact hany
      rw [List.map_cons, if_neg (by simp [hp])]
      simp only [List.lookup, hk]
      exact ih htail

theorem lookup_append_fresh (k : String) (v : Json) :
    ∀ l : List (String × Json), l.any (fun q => q.1 == k) = false →
      List.lookup k (l ++ [(k, v)]) = some v := by
  intro l
  induction l with
  | nil => intro _; simp [List.lookup]
  | cons p ps ih =>
    intro hany
    simp only [List.any_cons, Bool.or_eq_false_iff] at hany
    have hk : (k == p.1) = false := by
      rw [BEq.comm]
      exact hany.1
    simp only [List.cons_append, List.lookup, hk]
    exact ih (by simp [List.any_eq_false] at hany ⊢; exact hany.2)

theorem lookup_jsSetField (l : List (String × Json)) (k : String) (v : Json) :
    List.lookup k (jsSetField l k v) = some v := by
  unfold jsSetField
  by_cases hany : l.any (fun q => q.1 == k) = true
  · rw [if_pos hany]
    exact lookup_map_upsert k v l hany
  · rw [if_neg hany]
    exact lookup_append_fresh k v l (Bool.not_eq_true _ ▸ hany)

theorem mem_jsSetField_key_eq (l : List (String × Json)) (k : String) (v : Json) :
    ∀ p ∈ jsSetField l k v, p.1 = k → p.2 = v := by
  intro p hp hpk
  unfold jsSetField at hp
  by_cases hany : l.any (fun q => q.1 == k) = true
  · rw [if_pos hany] at hp
    rcases List.mem_map.mp hp with ⟨q, _hq, hfq⟩
    by_cases hqk : (q.1 == k) = true
    · rw [if_pos hqk] at hfq
      rw [← hfq]
    · rw [if_neg hqk] at hfq
      exact absurd (hfq ▸ hpk) (fun hq => hqk (beq_iff_eq.mpr hq))
  · rw [if_neg hany] at hp
    rcases List.mem_append.mp hp with h | h
    · have hall := List.any_eq_false.mp (Bool.not_eq_true _ ▸ hany)
      exact absurd (beq_iff_eq.mpr hpk) (by simpa using hall p h)
    · simp at h
      rw [h]

/-- Claim C9: when the input answers mapping already contains a
`student_name` key, `injectStudentName` overwrites that entry with the
supplied student name — the caller-provided value is gone from the output
(and hence never reaches the rendered document). -/
theorem claim9_overwrite (answers : List (String × Json)) (name : String)
    (_h : answers.any (fun p => p.1 == "student_name") = true) :
    List.lookup "student_name" (injectStudentName answers name) =
      some (Json.str name) ∧
    ∀ p ∈ injectStudentName answers name,
      p.1 = "student_name" → p.2 = Json.str name := by
  unfold injectStudentName
  exact ⟨lookup_jsSetField _ _ _, mem_jsSetField_key_eq _ _ _⟩

/-- Witness for C9: a caller-provided `student_name: 7` is replaced by the
actual name. -/
theorem claim9_overwrite_witness :
    List.lookup "student_name"
        (injectStudentName [("student_name", Json.num 7)] "X") =
      some (Json.str "X") :=
  (claim9_overwrite [("student_name", Json.num 7)] "X" (by decide)).1

/-- Counterexample to claim C5: with answers
`[a ↦ "(student name)", student_name ↦ 7]` and student name `"$$"`, the
code maps `a` to `"$"` — `String.prototype.replace` interprets `$$` in the
replacement as a single dollar, so the phrase is not replaced by the
student name — and maps the non-string `student_name` value `7` to the
string `"$$"` instead of passing it through unchanged. -/
theorem claim5_counterexample :
    injectStudentName
        [("a", Json.str "(student name)"), ("student_name", Json.num 7)]
        "$$" =
      [("a", Json.str "$"), ("student_name", Json.str "$$")] ∧
    Json.str "$" ≠ Json.str "$$" ∧
    Json.str "$$" ≠ Json.num 7 := by
  refine ⟨rfl, ?_, ?_⟩
  · intro h
    injection h with h1
    exact absurd h1 (by decide)
  · intro h
    exact Json.noConfusion h

/-- Claim C5 (amended): for every answers mapping and every student name
containing no dollar sign, `injectStudentName` replaces every
case-insensitive occurrence of the literal phrase `"(student name)"` inside
string values with the student name and passes non-string values through
unchanged — except under the key `student_name`, whose entry is finally
overwritten — and the output always maps `student_name` to the student
name.  (For names with dollar signs the replacement undergoes JavaScript's
dollar-substitution; see the counterexample.) -/
theorem claim5_amended (answers : List (String × Json)) (name : String)
    (hname : dollarChar ∉ name.data) :
    (∀ k v, (k, v) ∈ answers → k ≠ "student_name" →
      (k, specTransformValue name v) ∈ injectStudentName answers name) ∧
    List.lookup "student_name" (injectStudentName answers name) =
      some (Json.str name) := by
  constructor
  · intro k v hkv hne
    unfold injectStudentName
    refine mem_jsSetField_of_ne _ _ _ _ ?_ hne
    refine List.mem_map.mpr ⟨(k, v), hkv, ?_⟩
    cases v with
    | str s =>
      simp only [specTransformValue]
      rw [jsStringReplaceAll_no_dollar s name hname]
    | null => rfl
    | bool b => rfl
    | num n => rfl
    | arr a => rfl
    | obj o => rfl
  · unfold injectStudentName
    exact lookup_jsSetField _ _ _

/-- Witness for (amended) C5: the phrase is replaced case-insensitively by
`"Jane"`, and `student_name` is present. -/
theorem claim5_amended_witness :
    ("a", specTransformValue "Jane" (Json.str "Hi (Student Name)!")) ∈
      injectStudentName
        [("a", Json.str "Hi (Student Name)!"), ("b", Json.num 3)] "Jane" ∧
    List.lookup "student_name"
        (injectStudentName
          [("a", Json.str "Hi (Student Name)!"), ("b", Json.num 3)] "Jane") =
      some (Json.str "Jane") :=
  ⟨(claim5_amended [("a", Json.str "Hi (Student Name)!"), ("b", Json.num 3)]
      "Jane" (by decide)).1 "a" (Json.str "Hi (Student Name)!")
      (List.mem_cons_self _ _) (by decide),
   (claim5_amended [("a", Json.str "Hi (Student Name)!"), ("b", Json.num 3)]
      "Jane" (by decide)).2⟩
